import Mathlib

/-!
Verification development for the `waitlist` service (Go, `src/main.go`,
honeypot revision; `src/unnamed/part_000` is the earlier non-honeypot
revision).  The Go code is shallowly embedded: pure string manipulation is
translated directly; calls into external libraries (the SQLite driver, the
`net/mail` address parser, the filesystem) are modelled as explicit oracle
parameters; the database is an explicit state value threaded through the
handler.
-/

namespace Waitlist

/-- The decoded JSON payload (`waitlistRequest` in `main.go`): field `email`,
and field `nickname` decoded into `trap` (Go zero value `""` when omitted). -/
structure Payload where
  email : String
  trap : String
  deriving DecidableEq

/-- An HTTP request as seen by the handlers.  `jsonBody` is the outcome of
`json.NewDecoder(r.Body).Decode` (`none` means a decode error), `formOk` the
outcome of `r.ParseForm`, and `formEmail` / `formNickname` the values
`r.FormValue` returns (Go yields `""` for absent keys).  These parse outcomes
stand in for the Go standard library, which is outside the repository. -/
structure Request where
  method : String
  path : String
  contentType : String
  jsonBody : Option Payload
  formOk : Bool
  formEmail : String
  formNickname : String
  deriving DecidableEq

/-- A row of the `waitlist` table.  `createdAt` abstracts the
`CURRENT_TIMESTAMP` value; SQLite orders these chronologically, which the
`Nat` order mirrors. -/
structure Row where
  id : Nat
  email : String
  createdAt : Nat
  deriving DecidableEq

/-- A row of the `waitlist_honeypot` table. -/
structure HpRow where
  id : Nat
  email : String
  trapValue : String
  createdAt : Nat
  deriving DecidableEq

/-- The database state after schema initialization: the two tables plus the
AUTOINCREMENT counters that assign the next `id`. -/
structure DBState where
  waitlist : List Row
  honeypot : List HpRow
  nextWaitlistId : Nat
  nextHoneypotId : Nat
  deriving DecidableEq

/-- An HTTP response: status code, `Content-Type` header, optional `Allow`
header, and the body text. -/
structure Response where
  status : Nat
  contentTypeHdr : String
  allow : Option String
  body : String
  deriving DecidableEq

/-- Characters removed from both ends by Go `strings.TrimSpace`. -/
def trimChars (cs : List Char) : List Char :=
  ((cs.dropWhile Char.isWhitespace).reverse.dropWhile Char.isWhitespace).reverse

/-- Go `strings.TrimSpace`, as a structural recursion over the character
list so that it evaluates inside the kernel. -/
def trimSpace (s : String) : String := String.mk (trimChars s.data)

/-- Sublist-of-consecutive-characters test: does `pat` occur inside `s`?
Mirrors Go `strings.Contains` (character-level, which agrees with Go's
byte-level search on valid UTF-8 text). -/
def charsContain (pat : List Char) : List Char → Bool
  | [] => pat.isEmpty
  | c :: rest => pat.isPrefixOf (c :: rest) || charsContain pat rest

/-- Left brace character, kept out of string literals. -/
def lbrace : Char := Char.ofNat 123

/-- Right brace character, kept out of string literals. -/
def rbrace : Char := Char.ofNat 125

/-- Go `html.EscapeString` applied to one character. -/
def htmlEscapeChar (c : Char) : String :=
  if c = '&' then "&amp;"
  else if c = '\x27' then "&#39;"
  else if c = '<' then "&lt;"
  else if c = '>' then "&gt;"
  else if c = '"' then "&#34;"
  else String.singleton c

/-- Go `html.EscapeString`: escapes `&`, single and double quotes, `<`, `>`. -/
def htmlEscape (s : String) : String :=
  String.join (s.data.map htmlEscapeChar)

/-- Lower-case hexadecimal digit. -/
def hexDigit (n : Nat) : Char :=
  if n < 10 then Char.ofNat (48 + n) else Char.ofNat (87 + n)

/-- Go `encoding/json` string escaping for one character (HTML escaping on,
as `json.NewEncoder` defaults to). -/
def jsonEscapeChar (c : Char) : String :=
  if c = '"' then "\\\""
  else if c = '\\' then "\\\\"
  else if c = '<' then "\\u003c"
  else if c = '>' then "\\u003e"
  else if c = '&' then "\\u0026"
  else if c = '\n' then "\\n"
  else if c = '\r' then "\\r"
  else if c = '\t' then "\\t"
  else if c.toNat < 32 then
    "\\u00" ++ String.singleton (hexDigit (c.toNat / 16)) ++
      String.singleton (hexDigit (c.toNat % 16))
  else String.singleton c

/-- Go `encoding/json` escaping of a whole string (content between the
quotes). -/
def jsonEscape (s : String) : String :=
  String.join (s.data.map jsonEscapeChar)

/-- The body `json.NewEncoder(w).Encode(map[string]string{...})` writes for a
given message: a one-key JSON object followed by a newline. -/
def jsonMessageBody (message : String) : String :=
  String.singleton lbrace ++ "\"message\":\"" ++ jsonEscape message ++ "\"" ++
    String.singleton rbrace ++ "\n"

/-- The fixed HTML page prefix `writeMessage` emits before the message. -/
def htmlBodyPrefix : String :=
  "<!DOCTYPE html><html lang=\"en\"><head><meta charset=\"utf-8\"><title>Waitlist</title></head><body><main><h1>Waitlist</h1><p>"

/-- The fixed HTML page suffix `writeMessage` emits after the message. -/
def htmlBodySuffix : String :=
  "</p><p><a href=\"/\">Back to form</a></p></main></body></html>"

/-- The HTML page `writeMessage` writes for a given message. -/
def htmlMessageBody (message : String) : String :=
  htmlBodyPrefix ++ htmlEscape message ++ htmlBodySuffix

/-- Go `writeMessage` (`main.go` lines 649-662): HTML page when
`htmlPreferred`, JSON object otherwise. -/
def writeMessage (status : Nat) (message : String) (htmlPreferred : Bool) :
    Response :=
  if htmlPreferred then
    { status := status, contentTypeHdr := "text/html; charset=utf-8",
      allow := none, body := htmlMessageBody message }
  else
    { status := status, contentTypeHdr := "application/json",
      allow := none, body := jsonMessageBody message }

/-- The response of the `r.Method != POST` branch: `Allow: POST` is set and
`http.Error` writes plain text `"method not allowed"` plus a newline. -/
def methodNotAllowedResponse : Response :=
  { status := 405, contentTypeHdr := "text/plain; charset=utf-8",
    allow := some "POST", body := "method not allowed\n" }

/-- Content-Type normalization in `waitlistHandler`: when a `;` occurs, the
prefix before the first `;` is kept and trimmed; otherwise the header value is
used unchanged. -/
def stripContentType (ct : String) : String :=
  if ct.data.contains ';' then
    trimSpace (String.mk (ct.data.takeWhile (fun c => ¬ c = ';')))
  else ct

/-- `isJSON` in `waitlistHandler`: the normalized Content-Type equals
`application/json` exactly. -/
def isJSONRequest (r : Request) : Bool :=
  stripContentType r.contentType = "application/json"

/-- The parse stage of `waitlistHandler`: decode JSON when `isJSON` (a decode
error yields `none`), otherwise `ParseForm` plus `FormValue` for `email` and
`nickname`.  Returns the raw (untrimmed) email and trap values. -/
def requestFields (r : Request) : Option (String × String) :=
  if isJSONRequest r then
    r.jsonBody.map (fun p => (p.email, p.trap))
  else
    if r.formOk then some (r.formEmail, r.formNickname) else none

/-- Go `strings.Contains` on whole strings. -/
def containsSubstr (s pat : String) : Bool :=
  charsContain pat.data s.data

/-- Go `isUniqueConstraint`: the error text contains
`"UNIQUE constraint failed"`. -/
def isUniqueConstraint (errMsg : String) : Bool :=
  containsSubstr errMsg "UNIQUE constraint failed"

/-- The error message SQLite produces for a violation of the `UNIQUE`
constraint on `waitlist.email`. -/
def uniqueViolationMsg : String :=
  "constraint failed: UNIQUE constraint failed: waitlist.email"

/-- Model of `INSERT INTO waitlist(email) VALUES (?)` against SQLite
(`insertWaitlist`, `main.go` lines 551-554): an external fault (`wfault`
oracle, e.g. a lost connection) surfaces as that error; otherwise the
`UNIQUE` constraint on `email` rejects a duplicate and a fresh row with the
next AUTOINCREMENT id and the current timestamp is appended otherwise. -/
def execInsertWaitlist (db : DBState) (email : String) (now : Nat)
    (wfault : Option String) : Except String DBState :=
  match wfault with
  | some m => .error m
  | none =>
    if db.waitlist.any (fun row => row.email = email) then
      .error uniqueViolationMsg
    else
      .ok { db with
              waitlist := db.waitlist ++ [⟨db.nextWaitlistId, email, now⟩],
              nextWaitlistId := db.nextWaitlistId + 1 }

/-- Model of `INSERT INTO waitlist_honeypot(email, trap_value) VALUES (?, ?)`
(`insertHoneypot`, `main.go` lines 556-559): the table has no uniqueness
constraint, so only an external fault (`hfault` oracle) can fail. -/
def execInsertHoneypot (db : DBState) (email trapValue : String) (now : Nat)
    (hfault : Option String) : Except String DBState :=
  match hfault with
  | some m => .error m
  | none =>
    .ok { db with
            honeypot := db.honeypot ++
              [⟨db.nextHoneypotId, email, trapValue, now⟩],
            nextHoneypotId := db.nextHoneypotId + 1 }

/-- Go `waitlistHandler` of the honeypot revision (`main.go` lines 480-549).
`validEmail` is the `mail.ParseAddress` oracle (`true` when parsing
succeeds), `wfault` / `hfault` the storage fault oracles for the two inserts,
`now` the insertion timestamp.  Returns the response and the database state
after the request. -/
def waitlistHandler (validEmail : String → Bool) (wfault hfault : Option String)
    (now : Nat) (db : DBState) (r : Request) : Response × DBState :=
  if r.method ≠ "POST" then (methodNotAllowedResponse, db)
  else
    match requestFields r with
    | none =>
      if isJSONRequest r then (writeMessage 400 "invalid JSON body" false, db)
      else (writeMessage 400 "invalid form data" true, db)
    | some (e, t) =>
      let email := trimSpace e
      let trapValue := trimSpace t
      if trapValue ≠ "" then
        match execInsertHoneypot db email trapValue now hfault with
        | .error _ =>
          (writeMessage 500 "internal server error" (!isJSONRequest r), db)
        | .ok dbNew =>
          (writeMessage 201 "email accepted for waitlist" (!isJSONRequest r),
            dbNew)
      else if email = "" then
        (writeMessage 400 "email is required" (!isJSONRequest r), db)
      else if validEmail email = false then
        (writeMessage 400 "invalid email address" (!isJSONRequest r), db)
      else
        match execInsertWaitlist db email now wfault with
        | .error m =>
          if isUniqueConstraint m then
            (writeMessage 409 "email already registered" (!isJSONRequest r), db)
          else
            (writeMessage 500 "internal server error" (!isJSONRequest r), db)
        | .ok dbNew =>
          (writeMessage 201 "email accepted for waitlist" (!isJSONRequest r),
            dbNew)

/-- The database state of the earlier, non-honeypot revision
(`src/unnamed/part_000`): only the `waitlist` table and its id counter. -/
structure OldDBState where
  waitlist : List Row
  nextWaitlistId : Nat
  deriving DecidableEq

/-- The parse stage of the earlier revision's `waitlistHandler`: its
`waitlistRequest` has only the `email` field, so a JSON body's `nickname`
key is ignored; form requests read only `email`. -/
def requestEmailOld (r : Request) : Option String :=
  if isJSONRequest r then
    r.jsonBody.map Payload.email
  else
    if r.formOk then some r.formEmail else none

/-- Model of the earlier revision's `insertWaitlist` (`part_000` lines
222-225), identical SQL against the same table. -/
def execInsertWaitlistOld (db : OldDBState) (email : String) (now : Nat)
    (wfault : Option String) : Except String OldDBState :=
  match wfault with
  | some m => .error m
  | none =>
    if db.waitlist.any (fun row => row.email = email) then
      .error uniqueViolationMsg
    else
      .ok { db with
              waitlist := db.waitlist ++ [⟨db.nextWaitlistId, email, now⟩],
              nextWaitlistId := db.nextWaitlistId + 1 }

/-- Go `waitlistHandler` of the earlier, non-honeypot revision
(`src/unnamed/part_000` lines 166-220).  Same oracles as the honeypot
revision; no trap field and no honeypot branch. -/
def waitlistHandlerOld (validEmail : String → Bool) (wfault : Option String)
    (now : Nat) (db : OldDBState) (r : Request) : Response × OldDBState :=
  if r.method ≠ "POST" then (methodNotAllowedResponse, db)
  else
    match requestEmailOld r with
    | none =>
      if isJSONRequest r then (writeMessage 400 "invalid JSON body" false, db)
      else (writeMessage 400 "invalid form data" true, db)
    | some e =>
      let email := trimSpace e
      if email = "" then
        (writeMessage 400 "email is required" (!isJSONRequest r), db)
      else if validEmail email = false then
        (writeMessage 400 "invalid email address" (!isJSONRequest r), db)
      else
        match execInsertWaitlistOld db email now wfault with
        | .error m =>
          if isUniqueConstraint m then
            (writeMessage 409 "email already registered" (!isJSONRequest r), db)
          else
            (writeMessage 500 "internal server error" (!isJSONRequest r), db)
        | .ok dbNew =>
          (writeMessage 201 "email accepted for waitlist" (!isJSONRequest r),
            dbNew)

/-- The response `http.NotFound` writes: plain-text 404 page. -/
def notFoundResponse : Response :=
  { status := 404, contentTypeHdr := "text/plain; charset=utf-8",
    allow := none, body := "404 page not found\n" }

/-- Go `serveIndex` (`main.go` lines 634-647): 404 off the root path, 405
with `Allow: GET` for non-GET, otherwise `http.ServeFile` sends `index.html`
(body abstracted as the file's content, content type inferred from the
`.html` extension). -/
def serveIndex (indexHtml : String) (r : Request) : Response :=
  if r.path ≠ "/" then notFoundResponse
  else if r.method ≠ "GET" then
    { status := 405, contentTypeHdr := "text/plain; charset=utf-8",
      allow := some "GET", body := "method not allowed\n" }
  else
    { status := 200, contentTypeHdr := "text/html; charset=utf-8",
      allow := none, body := indexHtml }

/-- The mux of the honeypot revision's `runAPIServer` (`main.go` lines
380-381): only the exact pattern `/api/v1/waitlist` is registered, so
`http.ServeMux` answers every other path with `http.NotFound`. -/
def apiServerDispatch (validEmail : String → Bool)
    (wfault hfault : Option String) (now : Nat) (db : DBState) (r : Request) :
    Response × DBState :=
  if r.path = "/api/v1/waitlist" then
    waitlistHandler validEmail wfault hfault now db r
  else (notFoundResponse, db)

/-- The mux of the earlier revision's `runAPIServer` (`part_000` lines
93-95): the subtree pattern `/` routes everything not matching the API path
to `serveIndex`. -/
def apiServerDispatchOld (validEmail : String → Bool) (wfault : Option String)
    (now : Nat) (indexHtml : String) (db : OldDBState) (r : Request) :
    Response × OldDBState :=
  if r.path = "/api/v1/waitlist" then
    waitlistHandlerOld validEmail wfault now db r
  else (serveIndex indexHtml r, db)

/-- The `ORDER BY created_at ASC, id ASC` relation on `waitlist` rows. -/
def rowLe (a b : Row) : Prop :=
  a.createdAt < b.createdAt ∨ (a.createdAt = b.createdAt ∧ a.id ≤ b.id)

/-- The `ORDER BY created_at ASC, id ASC` relation on honeypot rows. -/
def hpRowLe (a b : HpRow) : Prop :=
  a.createdAt < b.createdAt ∨ (a.createdAt = b.createdAt ∧ a.id ≤ b.id)

instance : DecidableRel rowLe := fun a b => by
  unfold rowLe; infer_instance

instance : DecidableRel hpRowLe := fun a b => by
  unfold hpRowLe; infer_instance

instance : IsTotal Row rowLe :=
  ⟨fun a b => by unfold rowLe; omega⟩

instance : IsTrans Row rowLe :=
  ⟨fun a b c hab hbc => by unfold rowLe at *; omega⟩

instance : IsTotal HpRow hpRowLe :=
  ⟨fun a b => by unfold hpRowLe; omega⟩

instance : IsTrans HpRow hpRowLe :=
  ⟨fun a b c hab hbc => by unfold hpRowLe at *; omega⟩

/-- The row sequence `SELECT id, email, created_at FROM waitlist ORDER BY
created_at ASC, id ASC` returns: the table sorted by the lexicographic
(`created_at`, `id`) order. -/
def queryWaitlistRows (table : List Row) : List Row :=
  List.insertionSort rowLe table

/-- The row sequence the honeypot `SELECT ... ORDER BY created_at ASC, id
ASC` returns. -/
def queryHoneypotRows (table : List HpRow) : List HpRow :=
  List.insertionSort hpRowLe table

/-- The line `fmt.Fprintf(tw, "%d\t%s\t%s\n", ...)` writes for a waitlist
row (without the final newline; the tabwriter later aligns the
tab-separated cells). -/
def formatWaitlistRow (row : Row) : String :=
  toString row.id ++ "\t" ++ row.email ++ "\t" ++ toString row.createdAt

/-- The line written for a honeypot row, four tab-separated cells. -/
def formatHoneypotRow (row : HpRow) : String :=
  toString row.id ++ "\t" ++ row.email ++ "\t" ++ row.trapValue ++ "\t" ++
    toString row.createdAt

/-- Header line of the primary listing. -/
def waitlistHeader : String := "ID\tEmail\tCreated At"

/-- Header line of the honeypot listing. -/
def honeypotHeader : String := "ID\tEmail\tTrap Value\tCreated At"

/-- Placeholder line printed when the primary table has no rows. -/
def waitlistPlaceholder : String := "(no entries)\t\t"

/-- Placeholder line printed when the honeypot table has no rows. -/
def honeypotPlaceholder : String := "(no honeypot entries)\t\t\t"

/-- The lines `listWaitlistEntries` feeds to the tabwriter (`main.go` lines
414-471): a header, then the query's rows in order, or a single placeholder
line when the query returned no rows. -/
def listLines (db : DBState) (honeypotOnly : Bool) : List String :=
  if honeypotOnly then
    let body := (queryHoneypotRows db.honeypot).map formatHoneypotRow
    honeypotHeader :: (if body.isEmpty then [honeypotPlaceholder] else body)
  else
    let body := (queryWaitlistRows db.waitlist).map formatWaitlistRow
    waitlistHeader :: (if body.isEmpty then [waitlistPlaceholder] else body)

/-- Go `resolveDatabasePath` plus `databasePath`: the `-f` override when
non-empty, else `DATABASE_PATH` (modelled as `Option String`, `none` for
unset) when set and non-empty, else `waitlist.db`. -/
def resolveDatabasePath (override : String) (env : Option String) : String :=
  if override ≠ "" then override
  else
    match env with
    | some p => if p ≠ "" then p else "waitlist.db"
    | none => "waitlist.db"

/-- Filesystem and database oracle for the listing command: whether a file
exists at a path, and the database state found there after `sql.Open` plus
`initializeDatabase` (a fresh or schema-less file yields the empty state,
since the schema statement only creates missing tables). -/
structure FS where
  fileExists : String → Bool
  content : String → DBState

/-- Go `listWaitlistEntries` (`main.go` lines 393-478) on the successful
I/O path: resolves the path; for a plain path (neither `:memory:` nor
`file:`-prefixed) that does not exist it returns the `database file ... not
found` error without touching the database; otherwise it opens and
initializes the database and produces the listing lines. -/
def listWaitlistEntries (fs : FS) (dbPathOverride : String)
    (env : Option String) (honeypotOnly : Bool) : Except String (List String) :=
  let dbPath := resolveDatabasePath dbPathOverride env
  if dbPath ≠ ":memory:" ∧ ¬ (List.isPrefixOf "file:".data dbPath.data = true) ∧
      fs.fileExists dbPath = false then
    .error ("database file \"" ++ dbPath ++ "\" not found")
  else
    .ok (listLines (fs.content dbPath) honeypotOnly)

/-- Modelled from the claim's words (C6): the Content-Type normalization the
claim describes, with the parameters after `;` stripped and the result
trimmed unconditionally. -/
def specContentTypeNorm (ct : String) : String :=
  trimSpace
    (if ct.data.contains ';' then String.mk (ct.data.takeWhile (fun c => ¬ c = ';'))
     else ct)

/-- Shape of a JSON response as `writeMessage` produces it: declared
`application/json` with a one-key message object body. -/
def jsonShapedResponse (resp : Response) : Prop :=
  resp.contentTypeHdr = "application/json" ∧
    ∃ m, resp.body = jsonMessageBody m

/-- Shape of an HTML response as `writeMessage` produces it: declared
`text/html` with the fixed page around the escaped message. -/
def htmlShapedResponse (resp : Response) : Prop :=
  resp.contentTypeHdr = "text/html; charset=utf-8" ∧
    ∃ m, resp.body = htmlMessageBody m

/-- Splitting a character list at tab characters, mirroring how the
tabwriter interprets a line as cells. -/
def splitCharsOnTab : List Char → List (List Char)
  | [] => [[]]
  | c :: rest =>
    let r := splitCharsOnTab rest
    if c = '\t' then [] :: r else (c :: r.headD []) :: r.tail

/-- The cells of one tabwriter line: the tab-separated fields. -/
def tabCells (s : String) : List String :=
  (splitCharsOnTab s.data).map String.mk

/-- Empty database state right after schema creation (AUTOINCREMENT counters
start at 1). -/
def emptyDB : DBState := ⟨[], [], 1, 1⟩

/-- A well-formed JSON submission request used as concrete input. -/
def jsonReq (e t : String) : Request :=
  { method := "POST", path := "/api/v1/waitlist",
    contentType := "application/json", jsonBody := some ⟨e, t⟩,
    formOk := true, formEmail := "", formNickname := "" }

/-- A form-encoded submission request used as concrete input. -/
def formReq (e t : String) : Request :=
  { method := "POST", path := "/api/v1/waitlist",
    contentType := "application/x-www-form-urlencoded", jsonBody := none,
    formOk := true, formEmail := e, formNickname := t }

/-- A concrete GET request that nonetheless declares
`Content-Type: application/json`. -/
def getJSONReq : Request :=
  { method := "GET", path := "/api/v1/waitlist",
    contentType := "application/json", jsonBody := some ⟨"a@b.c", ""⟩,
    formOk := true, formEmail := "", formNickname := "" }

/-- A POST whose Content-Type is `application/json` padded with a leading
space and carrying no `;` parameters. -/
def paddedJSONReq : Request :=
  { method := "POST", path := "/api/v1/waitlist",
    contentType := " application/json", jsonBody := some ⟨"a@b.c", ""⟩,
    formOk := true, formEmail := "", formNickname := "" }

/-- A concrete database with two rows sharing one timestamp, ids out of
insertion order in the stored list. -/
def tieDB : DBState :=
  ⟨[⟨2, "b@x.y", 5⟩, ⟨1, "a@x.y", 5⟩], [], 3, 1⟩

/-- The trap value a request carries once parsed, `""` when the body does
not parse at all. -/
def requestTrap (r : Request) : String :=
  match requestFields r with
  | some (_, t) => t
  | none => ""

/-- A filesystem oracle with no existing files, every path yielding the
fresh empty database once created. -/
def emptyFS : FS := ⟨fun _ => false, fun _ => emptyDB⟩

/-- A concrete GET request for the root path. -/
def rootGetReq : Request :=
  { method := "GET", path := "/", contentType := "", jsonBody := none,
    formOk := true, formEmail := "", formNickname := "" }

/-- A concrete POST request for the root path. -/
def rootPostReq : Request :=
  { method := "POST", path := "/", contentType := "", jsonBody := none,
    formOk := true, formEmail := "", formNickname := "" }

/-- The `any` test `execInsertWaitlist` performs coincides with membership of
the email among the stored rows' emails. -/
theorem any_email_eq_true_iff (l : List Row) (e : String) :
    (l.any (fun row => row.email = e) = true) ↔ e ∈ l.map Row.email := by
  simp [List.any_eq_true, List.mem_map]

/-- The SQLite uniqueness-violation message is recognized by the handler's
substring test. -/
theorem uniqueViolationMsg_detected :
    isUniqueConstraint uniqueViolationMsg = true := by decide

/-- C5: a request to the submission endpoint whose method is not POST gets
status 405 with the `Allow: POST` header, and the database is untouched. -/
theorem claim5_method_not_allowed (validEmail : String → Bool)
    (wfault hfault : Option String) (now : Nat) (db : DBState) (r : Request)
    (hm : r.method ≠ "POST") :
    waitlistHandler validEmail wfault hfault now db r =
        (methodNotAllowedResponse, db) ∧
      methodNotAllowedResponse.status = 405 ∧
      methodNotAllowedResponse.allow = some "POST" := by
  refine ⟨?_, rfl, rfl⟩
  simp [waitlistHandler, hm]

/-- Witness for C5 at the concrete input of a GET request. -/
theorem claim5_witness :
    waitlistHandler (fun _ => true) none none 0 emptyDB
        { method := "GET", path := "/api/v1/waitlist", contentType := "",
          jsonBody := none, formOk := true, formEmail := "",
          formNickname := "" } =
        (methodNotAllowedResponse, emptyDB) ∧
      methodNotAllowedResponse.status = 405 ∧
      methodNotAllowedResponse.allow = some "POST" :=
  claim5_method_not_allowed (fun _ => true) none none 0 emptyDB _ (by decide)

/-- C2: a POST whose parsed trap value trims to empty and whose email trims
to empty, or fails address validation, is answered 400 with the respective
message (`email is required` / `invalid email address`) and neither store
changes. -/
theorem claim2_invalid_email_rejected (validEmail : String → Bool)
    (wfault hfault : Option String) (now : Nat) (db : DBState) (r : Request)
    (e t : String) (hm : r.method = "POST")
    (hfields : requestFields r = some (e, t)) (ht : trimSpace t = "") :
    (trimSpace e = "" →
      waitlistHandler validEmail wfault hfault now db r =
        (writeMessage 400 "email is required" (!isJSONRequest r), db)) ∧
    (validEmail (trimSpace e) = false → trimSpace e ≠ "" →
      waitlistHandler validEmail wfault hfault now db r =
        (writeMessage 400 "invalid email address" (!isJSONRequest r), db)) := by
  constructor
  · intro he
    simp [waitlistHandler, hm, hfields, ht, he]
  · intro hv he
    simp [waitlistHandler, hm, hfields, ht, he, hv]

/-- Witness for C2 at the concrete inputs `email=""` and `email="not-an-email"`
(trap empty), with the address oracle rejecting the latter. -/
theorem claim2_witness :
    (trimSpace "" = "" →
      waitlistHandler (fun _ => false) none none 0 emptyDB (formReq "" "") =
        (writeMessage 400 "email is required"
          (!isJSONRequest (formReq "" "")), emptyDB)) ∧
    (((fun _ => false) : String → Bool) (trimSpace "") = false →
      trimSpace "" ≠ "" →
      waitlistHandler (fun _ => false) none none 0 emptyDB (formReq "" "") =
        (writeMessage 400 "invalid email address"
          (!isJSONRequest (formReq "" "")), emptyDB)) :=
  claim2_invalid_email_rejected (fun _ => false) none none 0 emptyDB
    (formReq "" "") "" "" (by decide) (by decide) (by decide)

/-- C3: a POST whose trap value is non-empty after trimming skips all email
validation, appends exactly one row (trimmed email, trimmed trap) to the
honeypot table, leaves the primary table as it was, and is answered 201 with
the same message a genuine success gets. -/
theorem claim3_honeypot_routing (validEmail : String → Bool)
    (wfault : Option String) (now : Nat) (db : DBState) (r : Request)
    (e t : String) (hm : r.method = "POST")
    (hfields : requestFields r = some (e, t)) (ht : trimSpace t ≠ "") :
    waitlistHandler validEmail wfault none now db r =
      (writeMessage 201 "email accepted for waitlist" (!isJSONRequest r),
        { db with
            honeypot := db.honeypot ++
              [⟨db.nextHoneypotId, trimSpace e, trimSpace t, now⟩],
            nextHoneypotId := db.nextHoneypotId + 1 }) := by
  simp [waitlistHandler, hm, hfields, ht, execInsertHoneypot]

/-- Witness for C3 at a concrete bot submission with an empty email, under an
oracle that rejects every address (validation is demonstrably skipped). -/
theorem claim3_witness :
    waitlistHandler (fun _ => false) none none 3 emptyDB (jsonReq "" " nick ") =
      (writeMessage 201 "email accepted for waitlist"
        (!isJSONRequest (jsonReq "" " nick ")),
        { emptyDB with
            honeypot := emptyDB.honeypot ++
              [⟨emptyDB.nextHoneypotId, trimSpace "", trimSpace " nick ", 3⟩],
            nextHoneypotId := emptyDB.nextHoneypotId + 1 }) :=
  claim3_honeypot_routing (fun _ => false) none 3 emptyDB (jsonReq "" " nick ")
    "" " nick " (by decide) (by decide) (by decide)

/-- C1: for a POST carrying a non-empty, oracle-valid email and an empty
trap value: a duplicate email yields 409 `email already registered` with the
table unchanged, and (given the uniqueness invariant) exactly one row with
that email persists; a fresh email yields 201 `email accepted for waitlist`
with exactly one new row appended; a non-uniqueness storage fault yields 500
`internal server error` with the table unchanged. -/
theorem claim1_insert_outcomes (validEmail : String → Bool)
    (hfault : Option String) (now : Nat) (db : DBState) (r : Request)
    (e t : String) (hm : r.method = "POST")
    (hfields : requestFields r = some (e, t)) (ht : trimSpace t = "")
    (hne : trimSpace e ≠ "") (hv : validEmail (trimSpace e) = true) :
    (trimSpace e ∈ db.waitlist.map Row.email →
      waitlistHandler validEmail none hfault now db r =
        (writeMessage 409 "email already registered" (!isJSONRequest r), db)) ∧
    (trimSpace e ∈ db.waitlist.map Row.email →
      (db.waitlist.map Row.email).Nodup →
      (((waitlistHandler validEmail none hfault now db r).2.waitlist.map
          Row.email).count (trimSpace e)) = 1) ∧
    (trimSpace e ∉ db.waitlist.map Row.email →
      waitlistHandler validEmail none hfault now db r =
        (writeMessage 201 "email accepted for waitlist" (!isJSONRequest r),
          { db with
              waitlist := db.waitlist ++ [⟨db.nextWaitlistId, trimSpace e, now⟩],
              nextWaitlistId := db.nextWaitlistId + 1 })) ∧
    (∀ m, isUniqueConstraint m = false →
      waitlistHandler validEmail (some m) hfault now db r =
        (writeMessage 500 "internal server error" (!isJSONRequest r), db)) := by
  have hdup : ∀ hmem : trimSpace e ∈ db.waitlist.map Row.email,
      waitlistHandler validEmail none hfault now db r =
        (writeMessage 409 "email already registered" (!isJSONRequest r), db) := by
    intro hmem
    have hany : db.waitlist.any (fun row => row.email = trimSpace e) = true :=
      (any_email_eq_true_iff db.waitlist (trimSpace e)).mpr hmem
    have huniq : isUniqueConstraint uniqueViolationMsg = true := by decide
    simp [waitlistHandler, hm, hfields, ht, hne, hv, execInsertWaitlist, hany,
      huniq]
  refine ⟨hdup, ?_, ?_, ?_⟩
  · intro hmem hnodup
    rw [hdup hmem]
    exact List.count_eq_one_of_mem hnodup hmem
  · intro hmem
    have hany : db.waitlist.any (fun row => row.email = trimSpace e) = false := by
      by_contra hc
      exact hmem ((any_email_eq_true_iff db.waitlist (trimSpace e)).mp
        (by simpa using hc))
    simp [waitlistHandler, hm, hfields, ht, hne, hv, execInsertWaitlist, hany]
  · intro m hnu
    simp [waitlistHandler, hm, hfields, ht, hne, hv, execInsertWaitlist, hnu]

/-- Witness for C1: a database already holding `a@b.c`, submitted again
(duplicate branch), under an oracle accepting every address. -/
theorem claim1_witness :
    ("a@b.c" ∈ (⟨[⟨1, "a@b.c", 0⟩], [], 2, 1⟩ : DBState).waitlist.map
        Row.email) ∧
    waitlistHandler (fun _ => true) none none 4
        (⟨[⟨1, "a@b.c", 0⟩], [], 2, 1⟩ : DBState) (jsonReq "a@b.c" "") =
      (writeMessage 409 "email already registered"
        (!isJSONRequest (jsonReq "a@b.c" "")),
        (⟨[⟨1, "a@b.c", 0⟩], [], 2, 1⟩ : DBState)) :=
  ⟨by decide,
    (claim1_insert_outcomes (fun _ => true) none 4
        (⟨[⟨1, "a@b.c", 0⟩], [], 2, 1⟩ : DBState) (jsonReq "a@b.c" "")
        "a@b.c" "" (by decide) (by decide) (by decide) (by decide)
        (by decide)).1 (by decide)⟩

/-- Responses `writeMessage` builds without HTML preference are JSON
shaped. -/
theorem jsonShaped_writeMessage (s : Nat) (m : String) :
    jsonShapedResponse (writeMessage s m false) :=
  ⟨rfl, m, rfl⟩

/-- Responses `writeMessage` builds with HTML preference are HTML shaped. -/
theorem htmlShaped_writeMessage (s : Nat) (m : String) :
    htmlShapedResponse (writeMessage s m true) :=
  ⟨rfl, m, rfl⟩

/-- Every response of the handler to a POST request comes from `writeMessage`
with the HTML flag complementing the JSON content-type test. -/
theorem waitlistHandler_writeMessage_shape (validEmail : String → Bool)
    (wfault hfault : Option String) (now : Nat) (db : DBState) (r : Request)
    (hm : r.method = "POST") :
    ∃ s m, (waitlistHandler validEmail wfault hfault now db r).1 =
      writeMessage s m (!isJSONRequest r) := by
  unfold waitlistHandler
  rw [if_neg (by simp [hm])]
  cases hrf : requestFields r with
  | none =>
    by_cases hJ : isJSONRequest r = true
    · exact ⟨400, "invalid JSON body", by simp [hJ]⟩
    · have hJ2 : isJSONRequest r = false := by
        cases h : isJSONRequest r
        · rfl
        · exact absurd h hJ
      exact ⟨400, "invalid form data", by simp [hJ2]⟩
  | some et =>
    obtain ⟨e, t⟩ := et
    dsimp only
    split
    · split
      · exact ⟨500, "internal server error", rfl⟩
      · exact ⟨201, "email accepted for waitlist", rfl⟩
    · split
      · exact ⟨400, "email is required", rfl⟩
      · split
        · exact ⟨400, "invalid email address", rfl⟩
        · split
          · split
            · exact ⟨409, "email already registered", rfl⟩
            · exact ⟨500, "internal server error", rfl⟩
          · exact ⟨201, "email accepted for waitlist", rfl⟩

/-- Counterexample to C4 as stated: a request declaring JSON but using the
GET method is answered by `http.Error` with a plain-text body, which is
neither JSON shaped nor HTML shaped. -/
theorem claim4_counterexample :
    isJSONRequest getJSONReq = true ∧
    (waitlistHandler (fun _ => true) none none 0 emptyDB getJSONReq).1 =
      methodNotAllowedResponse ∧
    ¬ jsonShapedResponse
        (waitlistHandler (fun _ => true) none none 0 emptyDB getJSONReq).1 ∧
    ¬ htmlShapedResponse
        (waitlistHandler (fun _ => true) none none 0 emptyDB getJSONReq).1 :=
  ⟨by decide, by decide, fun h => absurd h.1 (by decide),
    fun h => absurd h.1 (by decide)⟩

/-- C4 amended: restricted to POST requests, a declared-JSON request always
gets a JSON-shaped response and any other request an HTML-shaped one,
whatever the status code. -/
theorem claim4_post_body_shape (validEmail : String → Bool)
    (wfault hfault : Option String) (now : Nat) (db : DBState) (r : Request)
    (hm : r.method = "POST") :
    (isJSONRequest r = true →
      jsonShapedResponse (waitlistHandler validEmail wfault hfault now db r).1) ∧
    (isJSONRequest r = false →
      htmlShapedResponse (waitlistHandler validEmail wfault hfault now db r).1) := by
  obtain ⟨s, m, hsm⟩ :=
    waitlistHandler_writeMessage_shape validEmail wfault hfault now db r hm
  constructor
  · intro hJ
    rw [hsm, hJ]
    exact jsonShaped_writeMessage s m
  · intro hJ
    rw [hsm, hJ]
    exact htmlShaped_writeMessage s m

/-- Witness for C4 at concrete JSON and form submissions. -/
theorem claim4_witness :
    (isJSONRequest (jsonReq "a@b.c" "") = true →
      jsonShapedResponse
        (waitlistHandler (fun _ => true) none none 0 emptyDB
          (jsonReq "a@b.c" "")).1) ∧
    (isJSONRequest (jsonReq "a@b.c" "") = false →
      htmlShapedResponse
        (waitlistHandler (fun _ => true) none none 0 emptyDB
          (jsonReq "a@b.c" "")).1) :=
  claim4_post_body_shape (fun _ => true) none none 0 emptyDB
    (jsonReq "a@b.c" "") (by decide)

/-- Counterexample to C6 as stated: for the header value
`" application/json"` the claim's normalization (strip parameters, then trim)
yields `application/json`, yet the handler, which only trims when a `;` is
present, selects the form encoding and answers the form way (here: 400
`email is required` as HTML) instead of decoding the JSON body. -/
theorem claim6_counterexample :
    specContentTypeNorm " application/json" = "application/json" ∧
    isJSONRequest paddedJSONReq = false ∧
    (waitlistHandler (fun _ => true) none none 0 emptyDB paddedJSONReq).1 =
      writeMessage 400 "email is required" true :=
  ⟨by decide, by decide, rfl⟩

/-- C6 amended: JSON is selected exactly when the claim's normalization
yields `application/json` and in addition the header either carries `;`
parameters or is unchanged by trimming (no trim is applied to a
parameter-less header); malformed JSON still yields a 400 JSON body and
malformed form data a 400 HTML body. -/
theorem claim6_content_type_selection (validEmail : String → Bool)
    (wfault hfault : Option String) (now : Nat) (db : DBState) (r : Request) :
    (isJSONRequest r = true ↔
      (specContentTypeNorm r.contentType = "application/json" ∧
        (r.contentType.data.contains ';' = true ∨
          trimSpace r.contentType = r.contentType))) ∧
    (r.method = "POST" → isJSONRequest r = true → r.jsonBody = none →
      waitlistHandler validEmail wfault hfault now db r =
        (writeMessage 400 "invalid JSON body" false, db)) ∧
    (r.method = "POST" → isJSONRequest r = false → r.formOk = false →
      waitlistHandler validEmail wfault hfault now db r =
        (writeMessage 400 "invalid form data" true, db)) := by
  refine ⟨?_, ?_, ?_⟩
  · unfold isJSONRequest stripContentType specContentTypeNorm
    by_cases hc : ';' ∈ r.contentType.data
    · simp [hc]
    · simp [hc]
      constructor
      · intro h
        rw [h]
        exact ⟨by decide, by decide⟩
      · rintro ⟨h1, h2⟩
        rw [← h2]
        exact h1
  · intro hm hJ hb
    simp [waitlistHandler, hm, requestFields, hJ, hb]
  · intro hm hJ hb
    simp [waitlistHandler, hm, requestFields, hJ, hb]

/-- Witness for C6 at a concrete parameterized JSON Content-Type, using the
selection direction of the amended statement. -/
theorem claim6_witness :
    isJSONRequest
        { method := "POST", path := "/api/v1/waitlist",
          contentType := "application/json; charset=utf-8",
          jsonBody := some ⟨"a@b.c", ""⟩, formOk := true, formEmail := "",
          formNickname := "" } = true :=
  (claim6_content_type_selection (fun _ => true) none none 0 emptyDB
      { method := "POST", path := "/api/v1/waitlist",
        contentType := "application/json; charset=utf-8",
        jsonBody := some ⟨"a@b.c", ""⟩, formOk := true, formEmail := "",
        formNickname := "" }).1.mpr ⟨by decide, Or.inl (by decide)⟩

/-- C7: for every database state the listing prints a header line first; the
data lines are the table's rows (a permutation of the stored rows) sorted by
`created_at` ascending with `id` ascending as tie-break; an empty table
yields exactly one placeholder line whose tab-cell count matches the header
(3 cells for the primary table, 4 for the honeypot table). -/
theorem claim7_listing_order (db : DBState) :
    ((queryWaitlistRows db.waitlist).Perm db.waitlist ∧
      List.Sorted rowLe (queryWaitlistRows db.waitlist) ∧
      (db.waitlist = [] →
        listLines db false = [waitlistHeader, waitlistPlaceholder]) ∧
      (db.waitlist ≠ [] →
        listLines db false =
          waitlistHeader ::
            (queryWaitlistRows db.waitlist).map formatWaitlistRow) ∧
      (tabCells waitlistPlaceholder).length = 3 ∧
      (tabCells waitlistHeader).length = 3) ∧
    ((queryHoneypotRows db.honeypot).Perm db.honeypot ∧
      List.Sorted hpRowLe (queryHoneypotRows db.honeypot) ∧
      (db.honeypot = [] →
        listLines db true = [honeypotHeader, honeypotPlaceholder]) ∧
      (db.honeypot ≠ [] →
        listLines db true =
          honeypotHeader ::
            (queryHoneypotRows db.honeypot).map formatHoneypotRow) ∧
      (tabCells honeypotPlaceholder).length = 4 ∧
      (tabCells honeypotHeader).length = 4) := by
  constructor
  · refine ⟨List.perm_insertionSort rowLe db.waitlist,
      List.sorted_insertionSort rowLe db.waitlist, ?_, ?_, by decide, by decide⟩
    · intro h
      simp [listLines, queryWaitlistRows, h]
    · intro h
      have h1 : queryWaitlistRows db.waitlist ≠ [] := by
        intro h0
        exact h (List.nil_perm.mp
          (h0 ▸ List.perm_insertionSort rowLe db.waitlist))
      cases h2 : queryWaitlistRows db.waitlist with
      | nil => exact absurd h2 h1
      | cons x xs => simp [listLines, h2, List.isEmpty]
  · refine ⟨List.perm_insertionSort hpRowLe db.honeypot,
      List.sorted_insertionSort hpRowLe db.honeypot, ?_, ?_, by decide, by decide⟩
    · intro h
      simp [listLines, queryHoneypotRows, h]
    · intro h
      have h1 : queryHoneypotRows db.honeypot ≠ [] := by
        intro h0
        exact h (List.nil_perm.mp
          (h0 ▸ List.perm_insertionSort hpRowLe db.honeypot))
      cases h2 : queryHoneypotRows db.honeypot with
      | nil => exact absurd h2 h1
      | cons x xs => simp [listLines, h2, List.isEmpty]

/-- Witness for C7 at a concrete table whose two rows share one timestamp:
the tie-break lists id 1 before id 2 although the stored order is the
reverse, and the empty honeypot table gets its placeholder. -/
theorem claim7_witness :
    (tieDB.waitlist ≠ [] ∧
      listLines tieDB false =
        waitlistHeader :: (queryWaitlistRows tieDB.waitlist).map
          formatWaitlistRow) ∧
    (tieDB.honeypot = [] ∧
      listLines tieDB true = [honeypotHeader, honeypotPlaceholder]) ∧
    queryWaitlistRows tieDB.waitlist =
      [⟨1, "a@x.y", 5⟩, ⟨2, "b@x.y", 5⟩] :=
  ⟨⟨by decide, ((claim7_listing_order tieDB).1.2.2.2.1 (by decide))⟩,
    ⟨rfl, ((claim7_listing_order tieDB).2.2.2.1 rfl)⟩, by decide⟩

/-- Counterexample to C8 as stated: invoked with the default path while no
database file exists, the listing routine fails with `database file
"waitlist.db" not found` rather than creating the schema and printing the
placeholder. -/
theorem claim8_counterexample :
    listWaitlistEntries emptyFS "" none false =
      .error "database file \"waitlist.db\" not found" ∧
    ∀ lines, listWaitlistEntries emptyFS "" none false ≠ .ok lines := by
  constructor
  · rfl
  · intro lines h
    have h2 : (Except.error "database file \"waitlist.db\" not found" :
        Except String (List String)) = .ok lines := h
    exact Except.noConfusion h2

/-- C8 amended: before querying, the listing routine requires a plain path
(neither `:memory:` nor `file:`-prefixed) to exist; whenever the resolved
path passes that check it opens and initializes the database and succeeds
with the listing — in particular, over an empty (freshly initialized)
database it prints exactly the header and the placeholder. -/
theorem claim8_listing_success (fs : FS) (override : String)
    (env : Option String) (hp : Bool)
    (h : resolveDatabasePath override env = ":memory:" ∨
      List.isPrefixOf "file:".data (resolveDatabasePath override env).data =
        true ∨
      fs.fileExists (resolveDatabasePath override env) = true) :
    listWaitlistEntries fs override env hp =
        .ok (listLines (fs.content (resolveDatabasePath override env)) hp) ∧
      (fs.content (resolveDatabasePath override env) = emptyDB → hp = false →
        listWaitlistEntries fs override env hp =
          .ok [waitlistHeader, waitlistPlaceholder]) := by
  have hcond : ¬ (resolveDatabasePath override env ≠ ":memory:" ∧
      ¬ (List.isPrefixOf "file:".data
          (resolveDatabasePath override env).data = true) ∧
      fs.fileExists (resolveDatabasePath override env) = false) := by
    rcases h with h | h | h
    · exact fun hc => hc.1 h
    · exact fun hc => hc.2.1 h
    · intro hc
      rw [h] at hc
      exact absurd hc.2.2 (by decide)
  have hok : listWaitlistEntries fs override env hp =
      .ok (listLines (fs.content (resolveDatabasePath override env)) hp) := by
    simp only [listWaitlistEntries]
    rw [if_neg hcond]
  refine ⟨hok, ?_⟩
  intro hce hhp
  rw [hok, hce, hhp]
  rfl

/-- Witness for C8 at the concrete `:memory:` path over a fresh database. -/
theorem claim8_witness :
    listWaitlistEntries emptyFS ":memory:" none false =
        .ok (listLines (emptyFS.content
          (resolveDatabasePath ":memory:" none)) false) ∧
      (emptyFS.content (resolveDatabasePath ":memory:" none) = emptyDB →
        false = false →
        listWaitlistEntries emptyFS ":memory:" none false =
          .ok [waitlistHeader, waitlistPlaceholder]) :=
  claim8_listing_success emptyFS ":memory:" none false (Or.inl (by decide))

/-- C9: `serveIndex` and the README match the claim, but the honeypot
revision's `runAPIServer` registers only the API route on its mux, so the
running server answers both `GET /` and `POST /` with the mux's plain 404
page; the unregistered `serveIndex` itself would serve `index.html` on GET
and a 405 with `Allow: GET` on POST, as the earlier revision's server
(which did register it) still does. -/
theorem claim9_root_not_served :
    (apiServerDispatch (fun _ => true) none none 0 emptyDB rootGetReq).1 =
        notFoundResponse ∧
      (apiServerDispatch (fun _ => true) none none 0 emptyDB rootPostReq).1 =
        notFoundResponse ∧
      serveIndex "<form page>" rootGetReq =
        { status := 200, contentTypeHdr := "text/html; charset=utf-8",
          allow := none, body := "<form page>" } ∧
      (serveIndex "<form page>" rootPostReq).status = 405 ∧
      (serveIndex "<form page>" rootPostReq).allow = some "GET" ∧
      (apiServerDispatchOld (fun _ => true) none 0 "<form page>" ⟨[], 1⟩
          rootGetReq).1.status = 200 :=
  ⟨rfl, rfl, rfl, rfl, rfl, rfl⟩

/-- The earlier revision's parse stage extracts the first component of the
current revision's parse result. -/
theorem requestEmailOld_eq (r : Request) :
    requestEmailOld r = (requestFields r).map Prod.fst := by
  unfold requestEmailOld requestFields
  cases hJ : isJSONRequest r
  · cases r.formOk <;> rfl
  · cases r.jsonBody <;> rfl

/-- C10: on every request whose trap value (as parsed) trims to empty —
including requests whose body fails to parse or whose method is not POST —
the honeypot revision's handler returns exactly the response the earlier
revision's handler returns, and leaves the primary table exactly as that
handler leaves it. -/
theorem claim10_refinement (validEmail : String → Bool)
    (wfault hfault : Option String) (now : Nat) (db : DBState) (r : Request)
    (ht : trimSpace (requestTrap r) = "") :
    ((waitlistHandler validEmail wfault hfault now db r).1 =
      (waitlistHandlerOld validEmail wfault now
        ⟨db.waitlist, db.nextWaitlistId⟩ r).1) ∧
    ((waitlistHandler validEmail wfault hfault now db r).2.waitlist =
      (waitlistHandlerOld validEmail wfault now
        ⟨db.waitlist, db.nextWaitlistId⟩ r).2.waitlist) := by
  by_cases hm : r.method = "POST"
  · cases hrf : requestFields r with
    | none =>
      have hold : requestEmailOld r = none := by
        rw [requestEmailOld_eq, hrf]
        rfl
      cases hJ : isJSONRequest r <;>
        simp [waitlistHandler, waitlistHandlerOld, hm, hrf, hold, hJ]
    | some et =>
      obtain ⟨e, t⟩ := et
      have hold : requestEmailOld r = some e := by
        rw [requestEmailOld_eq, hrf]
        rfl
      have htt : trimSpace t = "" := by
        have h0 := ht
        unfold requestTrap at h0
        rw [hrf] at h0
        exact h0
      by_cases he : trimSpace e = ""
      · simp [waitlistHandler, waitlistHandlerOld, hm, hrf, hold, htt, he]
      · cases hv : validEmail (trimSpace e) with
        | false =>
          simp [waitlistHandler, waitlistHandlerOld, hm, hrf, hold, htt, he,
            hv]
        | true =>
          cases wfault with
          | some m =>
            cases hu : isUniqueConstraint m <;>
              simp [waitlistHandler, waitlistHandlerOld, hm, hrf, hold, htt,
                he, hv, hu, execInsertWaitlist, execInsertWaitlistOld]
          | none =>
            cases ha : db.waitlist.any (fun row => row.email = trimSpace e) <;>
              simp [waitlistHandler, waitlistHandlerOld, hm, hrf, hold, htt,
                he, hv, ha, execInsertWaitlist, execInsertWaitlistOld,
                uniqueViolationMsg_detected]
  · simp [waitlistHandler, waitlistHandlerOld, hm]

/-- Witness for C10 at a concrete form submission without a nickname
field. -/
theorem claim10_witness :
    ((waitlistHandler (fun _ => true) none none 2 emptyDB
        (formReq "a@b.c" "")).1 =
      (waitlistHandlerOld (fun _ => true) none 2
        ⟨emptyDB.waitlist, emptyDB.nextWaitlistId⟩ (formReq "a@b.c" "")).1) ∧
    ((waitlistHandler (fun _ => true) none none 2 emptyDB
        (formReq "a@b.c" "")).2.waitlist =
      (waitlistHandlerOld (fun _ => true) none 2
        ⟨emptyDB.waitlist, emptyDB.nextWaitlistId⟩
        (formReq "a@b.c" "")).2.waitlist) :=
  claim10_refinement (fun _ => true) none none 2 emptyDB (formReq "a@b.c" "")
    (by decide)

end Waitlist
